import Mathlib

/-!
Shallow embedding of `cellmaps_pipeline/runner.py` (idekerlab/music_pipeline):
the pipeline orchestration engine.  Pure Python functions become Lean
functions; filesystem state (which directories exist) is passed explicitly;
the opaque per-stage workers (`run() -> exit code`) are an oracle
`Stage → Int`; Python exceptions become `Except String`.
-/

namespace MusicPipeline

/-- Embedding of Python `str(n)` for a nonnegative integer `n`:
little-endian decimal digits, computed with structural fuel so that it
reduces by evaluation. -/
def natDigitsAux : Nat → Nat → List Nat
  | 0, _ => []
  | _ + 1, 0 => []
  | fuel + 1, n + 1 => ((n + 1) % 10) :: natDigitsAux fuel ((n + 1) / 10)

/-- Little-endian decimal digits of `n` (empty for 0). -/
def natDigits (n : Nat) : List Nat := natDigitsAux n n

/-- Decimal digit value to its ASCII character. -/
def digitToChar (d : Nat) : Char := Char.ofNat (48 + d)

/-- ASCII character back to its decimal digit value. -/
def charToDigit (c : Char) : Nat := c.toNat - 48

/-- Reconstruct a number from its little-endian decimal digits. -/
def fromDigits : List Nat → Nat
  | [] => 0
  | d :: ds => d + 10 * fromDigits ds

/-- Embedding of Python `str(n)` for `n : Nat`. -/
def natToStr (n : Nat) : String :=
  if n = 0 then "0" else String.mk ((natDigits n).reverse.map digitToChar)


/-- Embedding of `os.path.join(a, b)` for the case used throughout
`runner.py`: `a` is the absolute output root (`os.path.abspath(outdir)`)
and `b` a relative step-directory name, so the join is `a + "/" + b`. -/
def pathJoin (a b : String) : String := a ++ "/" ++ b

/-- Modelled from the spec: `constants.IMAGE_DOWNLOAD_STEP_DIR` comes from
the external `cellmaps_utils` package (not part of this repository); per the
spec each stage's directory name is computed deterministically from the
stage's name, so the image-download step directory name is modelled as the
package's published value. -/
def IMAGE_DOWNLOAD_STEP_DIR : String := "1.image_download"

/-- Modelled from the spec: `constants.PPI_DOWNLOAD_STEP_DIR` from the
external `cellmaps_utils` package. -/
def PPI_DOWNLOAD_STEP_DIR : String := "1.ppi_download"

/-- Modelled from the spec: `constants.PPI_EMBEDDING_STEP_DIR` from the
external `cellmaps_utils` package. -/
def PPI_EMBEDDING_STEP_DIR : String := "2.ppi_embedding"

/-- Modelled from the spec: `constants.IMAGE_EMBEDDING_STEP_DIR` from the
external `cellmaps_utils` package. -/
def IMAGE_EMBEDDING_STEP_DIR : String := "2.image_embedding"

/-- Modelled from the spec: `constants.COEMBEDDING_STEP_DIR` from the
external `cellmaps_utils` package. -/
def COEMBEDDING_STEP_DIR : String := "3.coembedding"

/-- Modelled from the spec: `constants.HIERARCHY_STEP_DIR` from the
external `cellmaps_utils` package. -/
def HIERARCHY_STEP_DIR : String := "4.hierarchy"

/-- `self._image_dir` (`PipelineRunner` subclasses, runner.py:143,362). -/
def imageDirOf (outdir : String) : String :=
  pathJoin outdir IMAGE_DOWNLOAD_STEP_DIR

/-- `self._ppi_dir` (runner.py:145,364). -/
def ppiDirOf (outdir : String) : String :=
  pathJoin outdir PPI_DOWNLOAD_STEP_DIR

/-- `self._ppi_embed_dir` (runner.py:147,366). -/
def ppiEmbedDirOf (outdir : String) : String :=
  pathJoin outdir PPI_EMBEDDING_STEP_DIR

/-- `self._hierarchy_dir` (runner.py:152,371). -/
def hierarchyDirOf (outdir : String) : String :=
  pathJoin outdir HIERARCHY_STEP_DIR

/-- Per-fold image-embedding directory
(`constants.IMAGE_EMBEDDING_STEP_DIR + str(fold_val)`, runner.py:67-69). -/
def imageEmbedDirOf (outdir : String) (fold : Nat) : String :=
  pathJoin outdir (IMAGE_EMBEDDING_STEP_DIR ++ natToStr fold)

/-- Per-fold co-embedding directory
(`constants.COEMBEDDING_STEP_DIR + str(fold_val)`, runner.py:70-72). -/
def coEmbedDirOf (outdir : String) (fold : Nat) : String :=
  pathJoin outdir (COEMBEDDING_STEP_DIR ++ natToStr fold)

/-- Embedding of `PipelineRunner._get_image_coembed_tuples` (runner.py:55-78).
The Python `fold` argument may be `None` (→ `CellmapsPipelineError`); an
actual list is traversed, producing one `(fold_val, image_embed_dir,
co_embed_dir)` tuple per entry. -/
def getImageCoembedTuples (outdir : String) :
    Option (List Nat) → Except String (List (Nat × String × String))
  | none => .error "Fold cannot be None"
  | some fold =>
    .ok (fold.map (fun f => (f, imageEmbedDirOf outdir f, coEmbedDirOf outdir f)))

/-- The stage instances of the pipeline DAG (spec §3 StageName):
image download, PPI download, PPI embedding, per-fold image embedding,
per-fold co-embedding, hierarchy generation. -/
inductive Stage where
  | imageDownload : Stage
  | ppiDownload : Stage
  | ppiEmbed : Stage
  | imageEmbed : Nat → Stage
  | coEmbed : Nat → Stage
  | hierarchy : Stage
deriving DecidableEq, Repr

/-- Transitive "stage `s` depends on stage `t`" relation of the fixed DAG:
`dependsOn s t = true` iff `t` is (transitively) upstream of `s`, i.e. `s`
is topologically after `t`.  Edges: PPIEmbed←PPIDownload,
ImageEmbed(f)←ImageDownload, CoEmbed(f)←{ImageEmbed(f), PPIEmbed} and
their ancestors, Hierarchy←every CoEmbed and their ancestors. -/
def dependsOn : Stage → Stage → Bool
  | .ppiEmbed, .ppiDownload => true
  | .imageEmbed _, .imageDownload => true
  | .coEmbed f, .imageEmbed g => f == g
  | .coEmbed _, .ppiEmbed => true
  | .coEmbed _, .imageDownload => true
  | .coEmbed _, .ppiDownload => true
  | .hierarchy, .hierarchy => false
  | .hierarchy, _ => true
  | _, _ => false

/-- Configuration state of `ProgrammaticPipelineRunner` after `__init__`
(runner.py:334-372): the output root and the `(fold, image_embed_dir,
co_embed_dir)` tuples.  The opaque stage inputs (samples, edge list, model
path, …) do not influence control flow of `run()` and are omitted. -/
structure ProgRunner where
  outdir : String
  tuples : List (Nat × String × String)

/-- `self._image_dir` of a runner. -/
def ProgRunner.imageDir (r : ProgRunner) : String := imageDirOf r.outdir

/-- `self._ppi_dir` of a runner. -/
def ProgRunner.ppiDir (r : ProgRunner) : String := ppiDirOf r.outdir

/-- `self._ppi_embed_dir` of a runner. -/
def ProgRunner.ppiEmbedDir (r : ProgRunner) : String := ppiEmbedDirOf r.outdir

/-- `self._hierarchy_dir` of a runner. -/
def ProgRunner.hierarchyDir (r : ProgRunner) : String := hierarchyDirOf r.outdir

/-- Construct a `ProgRunner` the way `__init__` does, from an output root
and the `fold` argument (runner.py:350-372). -/
def mkProgRunner (outdir : String) (fold : Option (List Nat)) :
    Except String ProgRunner :=
  (getImageCoembedTuples outdir fold).map (fun ts => ⟨outdir, ts⟩)

/-- The filesystem as observed by the idempotency checks: the set of paths
for which `os.path.isdir` answers true, as a list. -/
def isDir (fs : List String) (p : String) : Bool := fs.contains p

/-- Result oracle for the opaque stage workers: `res s` is the exit code
the concrete worker bound to stage instance `s` would return from `run()`
(spec §6 StageUnit contract). -/
abbrev ResOracle := Stage → Int

/-- Embedding of `ProgrammaticPipelineRunner._download_images`
(runner.py:530-574): skip with exit code 0 if the image directory exists,
otherwise construct the worker and return its exit code.  The second
component is the trace of worker invocations. -/
def downloadImages (r : ProgRunner) (fs : List String) (res : ResOracle) :
    Int × List Stage :=
  if isDir fs r.imageDir then (0, [])
  else (res .imageDownload, [.imageDownload])

/-- Embedding of `ProgrammaticPipelineRunner._download_ppi`
(runner.py:512-528). -/
def downloadPpi (r : ProgRunner) (fs : List String) (res : ResOracle) :
    Int × List Stage :=
  if isDir fs r.ppiDir then (0, [])
  else (res .ppiDownload, [.ppiDownload])

/-- Embedding of `ProgrammaticPipelineRunner._embed_ppi`
(runner.py:494-510). -/
def embedPpi (r : ProgRunner) (fs : List String) (res : ResOracle) :
    Int × List Stage :=
  if isDir fs r.ppiEmbedDir then (0, [])
  else (res .ppiEmbed, [.ppiEmbed])

/-- Embedding of `ProgrammaticPipelineRunner._hierarchy`
(runner.py:402-431). -/
def hierarchyStep (r : ProgRunner) (fs : List String) (res : ResOracle) :
    Int × List Stage :=
  if isDir fs r.hierarchyDir then (0, [])
  else (res .hierarchy, [.hierarchy])

/-- Loop body of `ProgrammaticPipelineRunner._embed_image`
(runner.py:464-492): per tuple, skip if the image-embedding directory
(`tuple[1]`) exists; otherwise invoke the worker; on a nonzero code return
it immediately, aborting the loop. -/
def embedImageLoop (fs : List String) (res : ResOracle) :
    List (Nat × String × String) → Int × List Stage
  | [] => (0, [])
  | t :: rest =>
    if isDir fs t.2.1 then embedImageLoop fs res rest
    else
      let c := res (.imageEmbed t.1)
      if c ≠ 0 then (c, [.imageEmbed t.1])
      else
        let p := embedImageLoop fs res rest
        (p.1, .imageEmbed t.1 :: p.2)

/-- Loop body of `ProgrammaticPipelineRunner._coembed` (runner.py:433-462):
per tuple, skip if the co-embedding directory (`tuple[2]`) exists;
otherwise invoke the worker; on a nonzero code return it immediately. -/
def coEmbedLoop (fs : List String) (res : ResOracle) :
    List (Nat × String × String) → Int × List Stage
  | [] => (0, [])
  | t :: rest =>
    if isDir fs t.2.2 then coEmbedLoop fs res rest
    else
      let c := res (.coEmbed t.1)
      if c ≠ 0 then (c, [.coEmbed t.1])
      else
        let p := coEmbedLoop fs res rest
        (p.1, .coEmbed t.1 :: p.2)

/-- `ProgrammaticPipelineRunner._embed_image` (runner.py:464-492). -/
def embedImage (r : ProgRunner) (fs : List String) (res : ResOracle) :
    Int × List Stage :=
  embedImageLoop fs res r.tuples

/-- `ProgrammaticPipelineRunner._coembed` (runner.py:433-462). -/
def coEmbedStep (r : ProgRunner) (fs : List String) (res : ResOracle) :
    Int × List Stage :=
  coEmbedLoop fs res r.tuples

/-- Embedding of `ProgrammaticPipelineRunner.run` (runner.py:374-400):
run the six phases in order; if a phase returns nonzero, raise
`CellmapsPipelineError` with the phase's message (the nonzero code is not
propagated); if all succeed return 0.  Also returns the trace of worker
invocations, in order. -/
def programmaticRun (r : ProgRunner) (fs : List String) (res : ResOracle) :
    Except String Int × List Stage :=
  let p1 := downloadImages r fs res
  if p1.1 ≠ 0 then (.error "Image download failed", p1.2)
  else
    let p2 := downloadPpi r fs res
    if p2.1 ≠ 0 then (.error "PPI download failed", p1.2 ++ p2.2)
    else
      let p3 := embedPpi r fs res
      if p3.1 ≠ 0 then (.error "PPI embed failed", p1.2 ++ p2.2 ++ p3.2)
      else
        let p4 := embedImage r fs res
        if p4.1 ≠ 0 then
          (.error "Image embed failed", p1.2 ++ p2.2 ++ p3.2 ++ p4.2)
        else
          let p5 := coEmbedStep r fs res
          if p5.1 ≠ 0 then
            (.error "Coembed failed", p1.2 ++ p2.2 ++ p3.2 ++ p4.2 ++ p5.2)
          else
            let p6 := hierarchyStep r fs res
            if p6.1 ≠ 0 then
              (.error "Hierarchy failed",
                p1.2 ++ p2.2 ++ p3.2 ++ p4.2 ++ p5.2 ++ p6.2)
            else
              (.ok 0, p1.2 ++ p2.2 ++ p3.2 ++ p4.2 ++ p5.2 ++ p6.2)

/-- Observable filesystem side effects of `CellmapsPipeline.run`
(runner.py:600-627): directory creation, start-marker write
(`write_task_start_json`), finish-marker write (`write_task_finish_json`,
carrying the recorded status). -/
inductive Event where
  | mkdir : String → Event
  | taskStart : Event
  | taskFinish : Int → Event
deriving DecidableEq, Repr

/-- Embedding of `CellmapsPipeline.__init__` (runner.py:582-598): a `None`
output root raises `CellmapsPipelineError('outdir is None')`; otherwise the
absolute output root is stored (`os.path.abspath` modelled as identity on
the already-absolute root). -/
def cellmapsPipelineInit (outdir : Option String) : Except String String :=
  match outdir with
  | none => .error "outdir is None"
  | some od => .ok od

/-- Embedding of `CellmapsPipeline.run` (runner.py:600-627).
`outdir` is the `self._outdir` field, `outdirExists` whether
`os.path.isdir(self._outdir)` holds, `runnerResult` the outcome of the
chosen strategy's `run()` (`.error` = strategy raised).  Returns the
method's own outcome plus the ordered filesystem events: the missing-outdir
guard raises before any side effect; otherwise the directory is created if
absent, the start marker written, `exit_status` initialised to 99, the
strategy run inside `try`, and the finish marker written in `finally` with
the strategy's code — or the sentinel 99 if the strategy raised, in which
case the exception propagates. -/
def cellmapsPipelineRun (outdir : Option String) (outdirExists : Bool)
    (runnerResult : Except String Int) : Except String Int × List Event :=
  match outdir with
  | none => (.error "outdir must be set", [])
  | some od =>
    let pre := (if outdirExists then [] else [Event.mkdir od]) ++ [Event.taskStart]
    match runnerResult with
    | .ok c => (.ok c, pre ++ [Event.taskFinish c])
    | .error e => (.error e, pre ++ [Event.taskFinish 99])

/-- Configuration state of `SLURMPipelineRunner` after `__init__`
(runner.py:96-153): fields that influence the generated scripts. -/
structure SlurmRunner where
  outdir : String
  cm4ai_image : Option String
  samples : Option String
  unique : Option String
  fake : Bool
  provenance : Option String
  tuples : List (Nat × String × String)
  slurm_partition : Option String
  slurm_account : Option String

/-- Construct the per-fold tuples of a `SLURMPipelineRunner` the way
`__init__` does (runner.py:150). -/
def mkSlurmTuples (outdir : String) (fold : Option (List Nat)) :
    Except String (List (Nat × String × String)) :=
  getImageCoembedTuples outdir fold

/-- Embedding of `SLURMPipelineRunner._write_slurm_directives`
(runner.py:155-182) with the defaults every caller uses
(time 4:00:00, mem 32G, 4 cpus); only the job name varies.  The missing
newline after the `--output` directive is in the source. -/
def writeSlurmDirectives (r : SlurmRunner) (jobName : String) : String :=
  "#!/bin/bash\n\n" ++
  "#SBATCH --job-name=" ++ jobName ++ "\n" ++
  "#SBATCH --chdir=" ++ r.outdir ++ "\n" ++
  "#SBATCH --output=%x.%j.out" ++
  (match r.slurm_partition with
   | some p => "#SBATCH --partition=" ++ p ++ "\n"
   | none => "") ++
  (match r.slurm_account with
   | some a => "#SBATCH --account=" ++ a ++ "\n"
   | none => "") ++
  "#SBATCH --ntasks=1\n" ++
  "#SBATCH --cpus-per-task=4\n" ++
  "#SBATCH --mem=32G\n" ++
  "#SBATCH --time=4:00:00\n\n" ++
  "echo $SLURM_JOB_ID\n" ++
  "echo $HOSTNAME\n"

/-- The `input_arg` selection shared by the two download generators
(runner.py:191-197, 214-220): `--cm4ai_table` if given, else
`--samples … --unique …`, else `CellmapsPipelineError`. -/
def downloadInputArg (r : SlurmRunner) : Except String String :=
  match r.cm4ai_image with
  | some c => .ok ("--cm4ai_table " ++ c)
  | none =>
    match r.samples, r.unique with
    | some s, some u => .ok ("--samples " ++ s ++ " --unique " ++ u)
    | _, _ =>
      .error "You must provide cm4ai_table parameter or samples and unque parameters."

/-- The provenance check shared by the two download generators
(runner.py:198-200, 221-223). -/
def provenanceArg (r : SlurmRunner) : Except String String :=
  match r.provenance with
  | none => .error "You must provide provenance parameter"
  | some p => .ok p

/-- Embedding of `SLURMPipelineRunner._generate_download_images_command`
(runner.py:184-205), producing `(filename, file content)`.  The source
writes the output directory and `'--provenance '` with no separating
space (runner.py:201-202); that concatenation is reproduced verbatim. -/
def genDownloadImagesCommand (r : SlurmRunner) :
    Except String (String × String) := do
  let dir := writeSlurmDirectives r "imagedownload"
  let inputArg ← downloadInputArg r
  let prov ← provenanceArg r
  pure ("imagedownloadjob.sh",
    dir ++ "cellmaps_imagedownloadercmd.py " ++ imageDirOf r.outdir ++
    "--provenance " ++ prov ++ " " ++ inputArg ++ "\n" ++ "exit $?\n")

/-- Embedding of `SLURMPipelineRunner._generate_download_ppi_command`
(runner.py:207-227); here the output directory and `' --provenance '` are
separated by a space (runner.py:224-225). -/
def genDownloadPpiCommand (r : SlurmRunner) :
    Except String (String × String) := do
  let dir := writeSlurmDirectives r "ppidownload"
  let inputArg ← downloadInputArg r
  let prov ← provenanceArg r
  pure ("ppidownloadjob.sh",
    dir ++ "cellmaps_ppidownloadercmd.py " ++ ppiDirOf r.outdir ++
    " --provenance " ++ prov ++ " " ++ inputArg ++ "\n" ++ "exit $?\n")

/-- Python list indexing `l[i]`: nonnegative indexes from the front,
negative indexes wrap from the back, out of range raises `IndexError`. -/
def pyIndex {α : Type} (l : List α) (i : Int) : Option α :=
  if 0 ≤ i then l[i.toNat]?
  else if i.natAbs ≤ l.length then l[l.length - i.natAbs]? else none

/-- The file content of an image-embedding job script when the directory
selected by the tuple lookup is `iedir` (runner.py:236-240). -/
def imageEmbedScriptContent (r : SlurmRunner) (fold : Nat) (iedir : String) :
    String :=
  writeSlurmDirectives r ("imageembed" ++ natToStr fold) ++
  "cellmaps_image_embeddingcmd.py " ++ iedir ++
  " --fold " ++ natToStr fold ++ " --inputdir " ++ imageDirOf r.outdir ++
  " " ++ (if r.fake then "--fake_embedder" else "") ++ " -vvvv\n" ++
  "exit $?\n"

/-- Embedding of `SLURMPipelineRunner._generate_embed_image_command`
(runner.py:229-241): the fold's image-embedding directory is selected by
indexing `self._image_coembed_tuples[fold - 1]` (runner.py:238); an
out-of-range index raises `IndexError`. -/
def genEmbedImageCommand (r : SlurmRunner) (fold : Nat) :
    Except String (String × String) :=
  match pyIndex r.tuples ((fold : Int) - 1) with
  | none => .error "IndexError"
  | some t =>
    .ok ("imageembedjob" ++ natToStr fold ++ ".sh",
      imageEmbedScriptContent r fold t.2.1)

/-- Embedding of `SLURMPipelineRunner._generate_embed_ppi_command`
(runner.py:243-254). -/
def genEmbedPpiCommand (r : SlurmRunner) : Except String (String × String) :=
  let dir := writeSlurmDirectives r "ppiembed"
  let fake := if r.fake then "--fake_embedder" else ""
  .ok ("ppiembedjob.sh",
    dir ++ "cellmaps_ppi_embeddingcmd.py " ++ ppiEmbedDirOf r.outdir ++
    " --inputdir " ++ ppiDirOf r.outdir ++ " " ++ fake ++ " -vvvv\n" ++
    "exit $?\n")

/-- The file content of a co-embedding job script when the directories
selected by the tuple lookup are `cedir` (output) and `iedir`
(image-embedding input) (runner.py:263-267). -/
def coembedScriptContent (r : SlurmRunner) (fold : Nat)
    (cedir iedir : String) : String :=
  writeSlurmDirectives r ("coembedding" ++ natToStr fold) ++
  "cellmaps_coembeddingcmd.py " ++ cedir ++
  " --ppi_embeddingdir " ++ ppiEmbedDirOf r.outdir ++
  " --image_embeddingdir " ++ iedir ++
  " " ++ (if r.fake then "--fake_embedding" else "") ++ " -vvvv\n" ++
  "exit $?\n"

/-- Embedding of `SLURMPipelineRunner._generate_coembed_command`
(runner.py:256-268): both directories come from
`self._image_coembed_tuples[fold - 1]` (runner.py:265-266). -/
def genCoembedCommand (r : SlurmRunner) (fold : Nat) :
    Except String (String × String) :=
  match pyIndex r.tuples ((fold : Int) - 1) with
  | none => .error "IndexError"
  | some t =>
    .ok ("coembeddingjob" ++ natToStr fold ++ ".sh",
      coembedScriptContent r fold t.2.2 t.2.1)

/-- Embedding of `SLURMPipelineRunner._generate_hierarchy_command`
(runner.py:270-282). -/
def genHierarchyCommand (r : SlurmRunner) : Except String (String × String) :=
  let dir := writeSlurmDirectives r "hierarchy"
  .ok ("hierarchyjob.sh",
    dir ++ "cellmaps_generate_hierarchycmd.py " ++ hierarchyDirOf r.outdir ++
    " --coembedding_dirs " ++
    String.join (r.tuples.map (fun t => t.2.2 ++ " ")) ++
    "-vvvv\n" ++ "exit $?\n")

/-- Python `str` of an `(int, str, str)` tuple, as interpolated at
runner.py:317 (`'f' + str(image_coembed_tuple) + '_coembed_job'`). -/
def pyTupleRepr (t : Nat × String × String) : String :=
  "(" ++ natToStr t.1 ++ ", " ++ "\x27" ++ t.2.1 ++ "\x27" ++ ", " ++
  "\x27" ++ t.2.2 ++ "\x27" ++ ")"

/-- The driver-script text written for one fold tuple inside the loop of
`SLURMPipelineRunner.run` (runner.py:308-320).  The co-embedding
submission line is written without a closing `)` or newline — that
truncation is in the source (runner.py:318-319). -/
def slurmFoldChunk (t : Nat × String × String)
    (ieName ceName : String) : String :=
  "# image embed\n" ++
  "image_embed_job" ++ natToStr t.1 ++
  "=$(sbatch --dependency=afterok:$image_download_job " ++ ieName ++ ")\n\n" ++
  "# fold" ++ natToStr t.1 ++ " co-embedding\n" ++
  "f" ++ pyTupleRepr t ++ "_coembed_job" ++
  "=$(sbatch --dependency=afterok:$image_embed_job" ++ natToStr t.1 ++
  " " ++ ceName

/-- The `':'.join(embed_job_names)` dependency list of the Hierarchy
submission (runner.py:307-321): `$ppi_embed_job` followed by each fold's
co-embedding job variable. -/
def slurmDependencyStr (tuples : List (Nat × String × String)) : String :=
  String.intercalate ":"
    ("$ppi_embed_job" ::
      tuples.map (fun t => "$" ++ "f" ++ pyTupleRepr t ++ "_coembed_job"))

/-- The Hierarchy submission written at the end of the driver script
(runner.py:322-323): its `--dependency=afterok:` clause carries
`':'.join(embed_job_names)`. -/
def slurmHierarchySubmission (tuples : List (Nat × String × String))
    (hierName : String) : String :=
  "# hierarchy\n" ++
  "hierarchy_job=$(sbatch --dependency=afterok:" ++
  slurmDependencyStr tuples ++ " " ++ hierName ++ ")\n\n"

/-- Embedding of `SLURMPipelineRunner.run` (runner.py:285-323): returns
the driver script content (`slurm_cellmaps_job.sh`) and the per-stage job
scripts `(filename, content)` in creation order.  No stage is executed —
the method only writes files. -/
def slurmRun (r : SlurmRunner) :
    Except String (String × List (String × String)) := do
  let d1 ← genDownloadImagesCommand r
  let d2 ← genDownloadPpiCommand r
  let d3 ← genEmbedPpiCommand r
  let folds ← r.tuples.mapM (fun t => do
    let ie ← genEmbedImageCommand r t.1
    let ce ← genCoembedCommand r t.1
    pure (t, ie, ce))
  let h ← genHierarchyCommand r
  let driver :=
    "#! /bin/bash\n\n" ++
    "# image download no dependencies\n" ++
    "image_download_job=$(sbatch " ++ d1.1 ++ ")\n\n" ++
    "# ppi download no dependencies\n" ++
    "ppi_download_job=$(sbatch " ++ d2.1 ++ ")\n\n" ++
    "# ppi embed\n" ++
    "ppi_embed_job=$(sbatch --dependency=afterok:$ppi_download_job " ++
    d3.1 ++ ")\n\n" ++
    String.join (folds.map (fun x => slurmFoldChunk x.1 x.2.1.1 x.2.2.1)) ++
    slurmHierarchySubmission r.tuples h.1
  pure (driver, [d1, d2, d3] ++
    folds.flatMap (fun x => [x.2.1, x.2.2]) ++ [h])

/-- The tuple list `_get_image_coembed_tuples` builds for an actual fold
list (runner.py:64-78). -/
def tuplesFor (outdir : String) (folds : List Nat) :
    List (Nat × String × String) :=
  folds.map (fun f => (f, imageEmbedDirOf outdir f, coEmbedDirOf outdir f))


/-- The `CellmapsPipelineError` message `run()` raises for the phase a
failing stage instance belongs to (runner.py:382-398). -/
def failLabel : Stage → String
  | .imageDownload => "Image download failed"
  | .ppiDownload => "PPI download failed"
  | .ppiEmbed => "PPI embed failed"
  | .imageEmbed _ => "Image embed failed"
  | .coEmbed _ => "Coembed failed"
  | .hierarchy => "Hierarchy failed"

/-- All invoked workers in a trace returned exit code 0. -/
def okTrace (res : ResOracle) (tr : List Stage) : Prop := ∀ s ∈ tr, res s = 0

/-- A concrete `ProgrammaticPipelineRunner` configuration used for
witnesses: output root `/out` and the given fold list. -/
def sampleProg (folds : List Nat) : ProgRunner :=
  ⟨"/out", tuplesFor "/out" folds⟩

/-- A concrete `SLURMPipelineRunner` configuration used for witnesses:
output root `/out`, a CM4AI table, a provenance file, the given folds. -/
def sampleSlurm (folds : List Nat) : SlurmRunner where
  outdir := "/out"
  cm4ai_image := some "table.zip"
  samples := none
  unique := none
  fake := false
  provenance := some "prov.json"
  tuples := tuplesFor "/out" folds
  slurm_partition := none
  slurm_account := none

/-- The finish-marker writes among a list of events. -/
def finishEvents (evs : List Event) : List Event :=
  evs.filter (fun e => match e with | .taskFinish _ => true | _ => false)

/-- The step-directory name of a fold's image-embedding stage instance
(runner.py:67-69). -/
def ieName (f : Nat) : String := IMAGE_EMBEDDING_STEP_DIR ++ natToStr f

/-- The step-directory name of a fold's co-embedding stage instance
(runner.py:70-72). -/
def ceName (f : Nat) : String := COEMBEDDING_STEP_DIR ++ natToStr f

/-- The step-directory names of the four singleton stage instances. -/
def fixedNames : List String :=
  [IMAGE_DOWNLOAD_STEP_DIR, PPI_DOWNLOAD_STEP_DIR, PPI_EMBEDDING_STEP_DIR,
   HIERARCHY_STEP_DIR]

/-- The step-directory names of all stage instances for a fold list. -/
def stageNames (folds : List Nat) : List String :=
  fixedNames ++ folds.map ieName ++ folds.map ceName

/-- The output paths of all stage instances for an output root and a fold
list: ImageDownload, PPIDownload, PPIEmbed, Hierarchy, then each fold's
ImageEmbed and CoEmbed (runner.py:64-78 and 143-153). -/
def stagePaths (outdir : String) (folds : List Nat) : List String :=
  [imageDirOf outdir, ppiDirOf outdir, ppiEmbedDirOf outdir,
   hierarchyDirOf outdir] ++
    folds.map (imageEmbedDirOf outdir) ++ folds.map (coEmbedDirOf outdir)

/-- `a` ends with `suffixStr` (observation helper over the char data). -/
def strEndsWith (a suffixStr : String) : Bool :=
  suffixStr.data.isSuffixOf a.data

/-- `sub` occurs as a contiguous run inside `l`. -/
def listContainsRun (sub : List Char) : List Char → Bool
  | [] => sub.isEmpty
  | c :: t => sub.isPrefixOf (c :: t) || listContainsRun sub t

/-- `sub` occurs inside `a` (observation helper over the char data). -/
def strContainsSub (a sub : String) : Bool :=
  listContainsRun sub.data a.data


/-! ## Theorems -/

theorem fromDigits_natDigitsAux (fuel : Nat) :
    ∀ n, n ≤ fuel → fromDigits (natDigitsAux fuel n) = n := by
  induction fuel with
  | zero => intro n hn; interval_cases n; rfl
  | succ fuel ih =>
    intro n hn
    match n with
    | 0 => rfl
    | (m + 1) =>
      have hdiv : (m + 1) / 10 ≤ fuel := by
        have : (m + 1) / 10 < m + 1 := Nat.div_lt_self (Nat.succ_pos m) (by omega)
        omega
      simp only [natDigitsAux, fromDigits, ih _ hdiv]
      omega

theorem fromDigits_natDigits (n : Nat) : fromDigits (natDigits n) = n :=
  fromDigits_natDigitsAux n n (Nat.le_refl n)

theorem natDigits_injective : Function.Injective natDigits := by
  intro a b h
  have := congrArg fromDigits h
  rwa [fromDigits_natDigits, fromDigits_natDigits] at this

theorem natDigitsAux_lt_ten (fuel : Nat) :
    ∀ n d, d ∈ natDigitsAux fuel n → d < 10 := by
  induction fuel with
  | zero => intro n d hd; simp [natDigitsAux] at hd
  | succ fuel ih =>
    intro n d hd
    match n with
    | 0 => simp [natDigitsAux] at hd
    | (m + 1) =>
      simp only [natDigitsAux, List.mem_cons] at hd
      rcases hd with h | h
      · omega
      · exact ih _ _ h

theorem natDigits_lt_ten (n d : Nat) (hd : d ∈ natDigits n) : d < 10 :=
  natDigitsAux_lt_ten n n d hd

theorem charToDigit_digitToChar (d : Nat) (hd : d < 10) :
    charToDigit (digitToChar d) = d := by
  interval_cases d <;> rfl

theorem map_digitToChar_inj {l₁ l₂ : List Nat}
    (h₁ : ∀ d ∈ l₁, d < 10) (h₂ : ∀ d ∈ l₂, d < 10)
    (h : l₁.map digitToChar = l₂.map digitToChar) : l₁ = l₂ := by
  induction l₁ generalizing l₂ with
  | nil =>
    cases l₂ with
    | nil => rfl
    | cons b bs => simp at h
  | cons a as ih =>
    cases l₂ with
    | nil => simp at h
    | cons b bs =>
      simp only [List.map_cons, List.cons.injEq] at h
      have ha : a < 10 := h₁ a (by simp)
      have hb : b < 10 := h₂ b (by simp)
      have hab : a = b := by
        have := congrArg charToDigit h.1
        rwa [charToDigit_digitToChar a ha, charToDigit_digitToChar b hb] at this
      have htail := ih (fun d hd => h₁ d (by simp [hd]))
        (fun d hd => h₂ d (by simp [hd])) h.2
      rw [hab, htail]

theorem natToStr_injective : Function.Injective natToStr := by
  intro a b h
  unfold natToStr at h
  by_cases ha : a = 0 <;> by_cases hb : b = 0
  · omega
  · exfalso
    rw [if_pos ha, if_neg hb] at h
    have hdata := congrArg String.data h
    simp only [String.data] at hdata
    have hd : (natDigits b).reverse.map digitToChar = ['0'] := hdata.symm
    have : natDigits b = [0] := by
      have hrev := @map_digitToChar_inj (natDigits b).reverse [0]
        (fun d hd => natDigits_lt_ten b d (List.mem_reverse.mp hd))
        (by intro d hd; simp at hd; omega)
        (by simpa [digitToChar] using hd)
      have := congrArg List.reverse hrev
      simpa using this
    have := congrArg fromDigits this
    rw [fromDigits_natDigits] at this
    simp [fromDigits] at this
    omega
  · exfalso
    rw [if_neg ha, if_pos hb] at h
    have hdata := congrArg String.data h
    simp only [String.data] at hdata
    have hd : (natDigits a).reverse.map digitToChar = ['0'] := hdata
    have : natDigits a = [0] := by
      have hrev := @map_digitToChar_inj (natDigits a).reverse [0]
        (fun d hd => natDigits_lt_ten a d (List.mem_reverse.mp hd))
        (by intro d hd; simp at hd; omega)
        (by simpa [digitToChar] using hd)
      have := congrArg List.reverse hrev
      simpa using this
    have := congrArg fromDigits this
    rw [fromDigits_natDigits] at this
    simp [fromDigits] at this
    omega
  · rw [if_neg ha, if_neg hb] at h
    have hdata := congrArg String.data h
    simp only [String.data] at hdata
    have hrev := @map_digitToChar_inj (natDigits a).reverse (natDigits b).reverse
      (fun d hd => natDigits_lt_ten a d (List.mem_reverse.mp hd))
      (fun d hd => natDigits_lt_ten b d (List.mem_reverse.mp hd))
      hdata
    have := congrArg List.reverse hrev
    simp only [List.reverse_reverse] at this
    exact natDigits_injective this


theorem getImageCoembedTuples_some (outdir : String) (folds : List Nat) :
    getImageCoembedTuples outdir (some folds) = .ok (tuplesFor outdir folds) :=
  rfl

/-- C2: for every invocation of `CellmapsPipeline.run()` that reaches the
strategy (output root configured), the finish marker is written exactly
once on every exit path — strategy returned 0, returned nonzero, or
raised — and when the strategy raised, the recorded status is the sentinel
99 initialised before the `try` block. -/
theorem finish_marker_written_exactly_once (od : String) (outdirExists : Bool)
    (runnerResult : Except String Int) :
    finishEvents (cellmapsPipelineRun (some od) outdirExists runnerResult).2 =
      [Event.taskFinish
        (match runnerResult with | .ok c => c | .error _ => 99)] := by
  cases runnerResult <;> cases outdirExists <;> rfl

/-- C5 counterexample: with an empty fold list, runner construction
succeeds (returns a runner with no fold tuples) — no `ConfigurationError`
is raised, contradicting the claim that an empty fold set fails. -/
theorem empty_fold_set_accepted :
    mkProgRunner "/out" (some []) = .ok ⟨"/out", []⟩ := rfl

/-- C5 amended: only a `None` fold argument fails runner construction
(with `CellmapsPipelineError('Fold cannot be None')`, before any stage
runs); an empty fold list is accepted and yields an empty tuple list. -/
theorem fold_none_fails_construction (outdir : String) :
    mkProgRunner outdir none = .error "Fold cannot be None" ∧
      mkProgRunner outdir (some []) = .ok ⟨outdir, []⟩ :=
  ⟨rfl, rfl⟩

/-- C6: if no output root is configured, `CellmapsPipeline.run()` fails
with `CellmapsPipelineError('outdir must be set')` and performs zero
filesystem side effects — no directory creation, no start marker, no
finish marker. -/
theorem run_without_outdir_fails_no_side_effects (outdirExists : Bool)
    (runnerResult : Except String Int) :
    cellmapsPipelineRun none outdirExists runnerResult =
      (.error "outdir must be set", []) := rfl

/-- C7 counterexample: with fold set `{1, 2}` and a valid configuration,
the batch-scheduler strategy's `run()` writes 8 per-stage job scripts
(3 shared + 2 per fold + hierarchy), not 6 as claimed. -/
theorem slurm_two_folds_writes_eight_scripts :
    (slurmRun (sampleSlurm [1, 2])).map (fun p => p.2.length) = .ok 8 ∧
      (8 : Nat) ≠ 6 :=
  ⟨rfl, by decide⟩

set_option maxRecDepth 100000 in
/-- C7 amended: with fold set `{1, 2}`, the batch-scheduler strategy's
`run()` writes exactly 8 per-stage job scripts and 1 driver script,
executes no stage itself (it only returns script texts), and the driver's
Hierarchy submission line carries a dependency clause referencing the
job-ID variables of both CoEmbed(1) and CoEmbed(2) plus the shared
PPI-embedding job. -/
theorem slurm_two_folds_scripts_and_hierarchy_deps :
    (slurmRun (sampleSlurm [1, 2])).map (fun p =>
        (strEndsWith p.1
          (slurmHierarchySubmission (sampleSlurm [1, 2]).tuples
            "hierarchyjob.sh"),
         p.2.length, p.2.map Prod.fst)) =
      .ok (true, 8,
        ["imagedownloadjob.sh", "ppidownloadjob.sh", "ppiembedjob.sh",
         "imageembedjob1.sh", "coembeddingjob1.sh",
         "imageembedjob2.sh", "coembeddingjob2.sh", "hierarchyjob.sh"]) ∧
      slurmDependencyStr (sampleSlurm [1, 2]).tuples =
        "$ppi_embed_job" ++
        ":$f(1, \x27/out/2.image_embedding1\x27, \x27/out/3.coembedding1\x27)_coembed_job" ++
        ":$f(2, \x27/out/2.image_embedding2\x27, \x27/out/3.coembedding2\x27)_coembed_job" := by
  constructor
  · rfl
  · rfl

set_option maxRecDepth 100000 in
/-- C8: evaluation at a concrete valid configuration.  In the
image-download job script the output directory is immediately followed by
`--provenance` with no separating whitespace (the whitespace-separated
form does not occur), while in the PPI-download job script the directory
and `--provenance` are whitespace-separated — the image-download script
violates the claimed verbatim CLI contract. -/
theorem image_download_command_missing_separator :
    (genDownloadImagesCommand (sampleSlurm [1])).map (fun p =>
        (strContainsSub p.2 (imageDirOf "/out" ++ "--provenance"),
         strContainsSub p.2 (imageDirOf "/out" ++ " --provenance"))) =
      .ok (true, false) ∧
    (genDownloadPpiCommand (sampleSlurm [1])).map (fun p =>
        strContainsSub p.2 (ppiDirOf "/out" ++ " --provenance")) =
      .ok true :=
  ⟨rfl, rfl⟩

/-- C10: the per-fold script generators select a fold's directories by
indexing the tuple list at `fold - 1`.  For a fold list of the exact form
`[1, …, n]` each generated image-embed and co-embed script references that
fold's own image-embedding and co-embedding directories; for the fold list
`[2]` the index `2 - 1 = 1` is out of range and script generation raises
`IndexError` instead of producing a script. -/
theorem per_fold_scripts_index_fold_minus_one (outdir : String) (n f : Nat)
    (hf : f ∈ List.range' 1 n) :
    (∀ r : SlurmRunner, r.tuples = tuplesFor outdir (List.range' 1 n) →
      genEmbedImageCommand r f =
        .ok ("imageembedjob" ++ natToStr f ++ ".sh",
          imageEmbedScriptContent r f (imageEmbedDirOf outdir f)) ∧
      genCoembedCommand r f =
        .ok ("coembeddingjob" ++ natToStr f ++ ".sh",
          coembedScriptContent r f (coEmbedDirOf outdir f)
            (imageEmbedDirOf outdir f))) ∧
    genEmbedImageCommand (sampleSlurm [2]) 2 = .error "IndexError" ∧
    genCoembedCommand (sampleSlurm [2]) 2 = .error "IndexError" := by
  rw [List.mem_range'_1] at hf
  refine ⟨?_, rfl, rfl⟩
  intro r hr
  have hidx : pyIndex r.tuples ((f : Int) - 1) =
      some (f, imageEmbedDirOf outdir f, coEmbedDirOf outdir f) := by
    have hnn : (0 : Int) ≤ (f : Int) - 1 := by omega
    have htn : ((f : Int) - 1).toNat = f - 1 := by omega
    rw [pyIndex, if_pos hnn, htn, hr, tuplesFor, List.getElem?_map,
      List.getElem?_range' 1 1 (show f - 1 < n by omega)]
    simp only [Option.map_some']
    have : 1 + 1 * (f - 1) = f := by omega
    rw [this]
  exact ⟨by rw [genEmbedImageCommand, hidx], by rw [genCoembedCommand, hidx]⟩

/-- C10 witness: fold list `[1, 2]` (the form `[1, …, n]` with `n = 2`),
fold 1: the image-embed script is generated and references fold 1's own
image-embedding directory. -/
theorem per_fold_scripts_index_fold_minus_one_witness :
    genEmbedImageCommand (sampleSlurm [1, 2]) 1 =
      .ok ("imageembedjob" ++ natToStr 1 ++ ".sh",
        imageEmbedScriptContent (sampleSlurm [1, 2]) 1
          (imageEmbedDirOf "/out" 1)) :=
  ((per_fold_scripts_index_fold_minus_one "/out" 2 1 (by decide)).1
    (sampleSlurm [1, 2]) rfl).1

theorem embedImageLoop_all_skip (fs : List String) (res : ResOracle) :
    ∀ ts : List (Nat × String × String),
      (∀ t ∈ ts, isDir fs t.2.1 = true) →
      embedImageLoop fs res ts = (0, []) := by
  intro ts
  induction ts with
  | nil => intro _; rfl
  | cons t rest ih =>
    intro h
    rw [embedImageLoop, if_pos (h t (by simp))]
    exact ih (fun u hu => h u (by simp [hu]))

theorem coEmbedLoop_all_skip (fs : List String) (res : ResOracle) :
    ∀ ts : List (Nat × String × String),
      (∀ t ∈ ts, isDir fs t.2.2 = true) →
      coEmbedLoop fs res ts = (0, []) := by
  intro ts
  induction ts with
  | nil => intro _; rfl
  | cons t rest ih =>
    intro h
    rw [coEmbedLoop, if_pos (h t (by simp))]
    exact ih (fun u hu => h u (by simp [hu]))

/-- Every stage directory of runner `r` already exists on filesystem
`fs`. -/
def allStageDirsExist (r : ProgRunner) (fs : List String) : Prop :=
  isDir fs r.imageDir = true ∧ isDir fs r.ppiDir = true ∧
    isDir fs r.ppiEmbedDir = true ∧ isDir fs r.hierarchyDir = true ∧
    ∀ t ∈ r.tuples, isDir fs t.2.1 = true ∧ isDir fs t.2.2 = true

/-- C4: when a stage's output path already exists as a directory, the
in-process strategy resolves that stage to success (exit code 0) without
constructing or invoking its worker (empty invocation trace; the only
effect is the advisory warning); consequently, when every stage directory
exists — a fully populated output root — `run()` invokes no worker at all
and returns 0. -/
theorem existing_dir_skips_stage (r : ProgRunner) (fs : List String)
    (res : ResOracle) :
    (isDir fs r.imageDir = true → downloadImages r fs res = (0, [])) ∧
    (isDir fs r.ppiDir = true → downloadPpi r fs res = (0, [])) ∧
    (isDir fs r.ppiEmbedDir = true → embedPpi r fs res = (0, [])) ∧
    (isDir fs r.hierarchyDir = true → hierarchyStep r fs res = (0, [])) ∧
    (∀ t rest, isDir fs t.2.1 = true →
      embedImageLoop fs res (t :: rest) = embedImageLoop fs res rest) ∧
    (∀ t rest, isDir fs t.2.2 = true →
      coEmbedLoop fs res (t :: rest) = coEmbedLoop fs res rest) ∧
    (allStageDirsExist r fs → programmaticRun r fs res = (.ok 0, [])) := by
  refine ⟨fun h => by rw [downloadImages, if_pos h],
          fun h => by rw [downloadPpi, if_pos h],
          fun h => by rw [embedPpi, if_pos h],
          fun h => by rw [hierarchyStep, if_pos h],
          fun t rest h => by rw [embedImageLoop, if_pos h],
          fun t rest h => by rw [coEmbedLoop, if_pos h],
          ?_⟩
  rintro ⟨h1, h2, h3, h4, h5⟩
  have e1 : downloadImages r fs res = (0, []) := by rw [downloadImages, if_pos h1]
  have e2 : downloadPpi r fs res = (0, []) := by rw [downloadPpi, if_pos h2]
  have e3 : embedPpi r fs res = (0, []) := by rw [embedPpi, if_pos h3]
  have e4 : embedImage r fs res = (0, []) :=
    embedImageLoop_all_skip fs res r.tuples (fun t ht => (h5 t ht).1)
  have e5 : coEmbedStep r fs res = (0, []) :=
    coEmbedLoop_all_skip fs res r.tuples (fun t ht => (h5 t ht).2)
  have e6 : hierarchyStep r fs res = (0, []) := by rw [hierarchyStep, if_pos h4]
  rw [programmaticRun, e1, e2, e3, e4, e5, e6]
  simp

/-- C4 witness: fold set `[1]`, a fully populated output root, and workers
that would all fail with exit code 7 if invoked: the second run still
skips every stage (empty invocation trace) and returns 0. -/
theorem existing_dir_skips_stage_witness :
    allStageDirsExist (sampleProg [1])
        [imageDirOf "/out", ppiDirOf "/out", ppiEmbedDirOf "/out",
         hierarchyDirOf "/out", imageEmbedDirOf "/out" 1,
         coEmbedDirOf "/out" 1] ∧
      programmaticRun (sampleProg [1])
        [imageDirOf "/out", ppiDirOf "/out", ppiEmbedDirOf "/out",
         hierarchyDirOf "/out", imageEmbedDirOf "/out" 1,
         coEmbedDirOf "/out" 1] (fun _ => 7) = (.ok 0, []) := by
  have hall : allStageDirsExist (sampleProg [1])
      [imageDirOf "/out", ppiDirOf "/out", ppiEmbedDirOf "/out",
       hierarchyDirOf "/out", imageEmbedDirOf "/out" 1,
       coEmbedDirOf "/out" 1] := by
    refine ⟨by decide, by decide, by decide, by decide, ?_⟩
    intro t ht
    simp only [sampleProg, tuplesFor, List.map_cons, List.map_nil,
      List.mem_singleton] at ht
    subst ht
    exact ⟨by decide, by decide⟩
  exact ⟨hall,
    (existing_dir_skips_stage (sampleProg [1]) _ (fun _ => 7)).2.2.2.2.2.2 hall⟩

theorem okTrace_append {res : ResOracle} {a b : List Stage} :
    okTrace res (a ++ b) ↔ okTrace res a ∧ okTrace res b := by
  constructor
  · exact fun h => ⟨fun s hs => h s (List.mem_append.mpr (.inl hs)),
      fun s hs => h s (List.mem_append.mpr (.inr hs))⟩
  · rintro ⟨ha, hb⟩ s hs
    rcases List.mem_append.mp hs with h | h
    · exact ha s h
    · exact hb s h

theorem okTrace_nil {res : ResOracle} : okTrace res [] := by
  intro s hs; cases hs

theorem embedImageLoop_spec (fs : List String) (res : ResOracle) :
    ∀ ts : List (Nat × String × String),
      ((embedImageLoop fs res ts).1 = 0 →
        okTrace res (embedImageLoop fs res ts).2) ∧
      ((embedImageLoop fs res ts).1 ≠ 0 →
        ∃ tr f, (embedImageLoop fs res ts).2 = tr ++ [Stage.imageEmbed f] ∧
          okTrace res tr ∧
          res (Stage.imageEmbed f) = (embedImageLoop fs res ts).1) := by
  intro ts
  induction ts with
  | nil => exact ⟨fun _ => okTrace_nil, fun h => absurd rfl h⟩
  | cons t rest ih =>
    by_cases hdir : isDir fs t.2.1
    · rw [embedImageLoop, if_pos hdir]
      exact ih
    · rw [embedImageLoop, if_neg hdir]
      by_cases hc : res (.imageEmbed t.1) ≠ 0
      · rw [if_pos hc]
        refine ⟨fun h0 => absurd h0 hc, fun _ => ⟨[], t.1, rfl, okTrace_nil, rfl⟩⟩
      · rw [if_neg hc]
        push_neg at hc
        constructor
        · intro h0
          intro s hs
          rcases List.mem_cons.mp hs with h | h
          · rw [h]; exact hc
          · exact (ih.1 h0) s h
        · intro hne
          obtain ⟨tr, f, htr, hok, hres⟩ := ih.2 hne
          refine ⟨.imageEmbed t.1 :: tr, f, by simp [htr], ?_, hres⟩
          intro s hs
          rcases List.mem_cons.mp hs with h | h
          · rw [h]; exact hc
          · exact hok s h

theorem coEmbedLoop_spec (fs : List String) (res : ResOracle) :
    ∀ ts : List (Nat × String × String),
      ((coEmbedLoop fs res ts).1 = 0 →
        okTrace res (coEmbedLoop fs res ts).2) ∧
      ((coEmbedLoop fs res ts).1 ≠ 0 →
        ∃ tr f, (coEmbedLoop fs res ts).2 = tr ++ [Stage.coEmbed f] ∧
          okTrace res tr ∧
          res (Stage.coEmbed f) = (coEmbedLoop fs res ts).1) := by
  intro ts
  induction ts with
  | nil => exact ⟨fun _ => okTrace_nil, fun h => absurd rfl h⟩
  | cons t rest ih =>
    by_cases hdir : isDir fs t.2.2
    · rw [coEmbedLoop, if_pos hdir]
      exact ih
    · rw [coEmbedLoop, if_neg hdir]
      by_cases hc : res (.coEmbed t.1) ≠ 0
      · rw [if_pos hc]
        refine ⟨fun h0 => absurd h0 hc, fun _ => ⟨[], t.1, rfl, okTrace_nil, rfl⟩⟩
      · rw [if_neg hc]
        push_neg at hc
        constructor
        · intro h0
          intro s hs
          rcases List.mem_cons.mp hs with h | h
          · rw [h]; exact hc
          · exact (ih.1 h0) s h
        · intro hne
          obtain ⟨tr, f, htr, hok, hres⟩ := ih.2 hne
          refine ⟨.coEmbed t.1 :: tr, f, by simp [htr], ?_, hres⟩
          intro s hs
          rcases List.mem_cons.mp hs with h | h
          · rw [h]; exact hc
          · exact hok s h

/-- The invocation order of `ProgrammaticPipelineRunner.run`, which is a
topological order of the DAG: downloads, PPI embedding, per-fold image
embeddings, per-fold co-embeddings, hierarchy. -/
def fullOrder (ts : List (Nat × String × String)) : List Stage :=
  [Stage.imageDownload] ++ [Stage.ppiDownload] ++ [Stage.ppiEmbed] ++
    ts.map (fun t => Stage.imageEmbed t.1) ++
    ts.map (fun t => Stage.coEmbed t.1) ++ [Stage.hierarchy]

theorem embedImageLoop_trace_sublist (fs : List String) (res : ResOracle) :
    ∀ ts, List.Sublist (embedImageLoop fs res ts).2
      (ts.map (fun t => Stage.imageEmbed t.1)) := by
  intro ts
  induction ts with
  | nil => simp [embedImageLoop]
  | cons t rest ih =>
    by_cases hdir : isDir fs t.2.1
    · rw [embedImageLoop, if_pos hdir]
      exact ih.trans (List.sublist_cons_self _ _)
    · rw [embedImageLoop, if_neg hdir]
      by_cases hc : res (.imageEmbed t.1) ≠ 0
      · rw [if_pos hc]
        simp
      · rw [if_neg hc]
        exact List.Sublist.cons₂ _ ih

theorem coEmbedLoop_trace_sublist (fs : List String) (res : ResOracle) :
    ∀ ts, List.Sublist (coEmbedLoop fs res ts).2
      (ts.map (fun t => Stage.coEmbed t.1)) := by
  intro ts
  induction ts with
  | nil => simp [coEmbedLoop]
  | cons t rest ih =>
    by_cases hdir : isDir fs t.2.2
    · rw [coEmbedLoop, if_pos hdir]
      exact ih.trans (List.sublist_cons_self _ _)
    · rw [coEmbedLoop, if_neg hdir]
      by_cases hc : res (.coEmbed t.1) ≠ 0
      · rw [if_pos hc]
        simp
      · rw [if_neg hc]
        exact List.Sublist.cons₂ _ ih

theorem downloadImages_spec (r : ProgRunner) (fs : List String)
    (res : ResOracle) :
    ((downloadImages r fs res).1 = 0 →
      okTrace res (downloadImages r fs res).2) ∧
    ((downloadImages r fs res).1 ≠ 0 →
      (downloadImages r fs res).2 = [Stage.imageDownload] ∧
        res .imageDownload = (downloadImages r fs res).1) := by
  by_cases h : isDir fs r.imageDir
  · have e : downloadImages r fs res = (0, []) := by rw [downloadImages, if_pos h]
    rw [e]
    exact ⟨fun _ => okTrace_nil, fun hne => absurd rfl hne⟩
  · have e : downloadImages r fs res = (res .imageDownload, [.imageDownload]) := by
      rw [downloadImages, if_neg h]
    rw [e]
    refine ⟨fun h0 s hs => ?_, fun _ => ⟨rfl, rfl⟩⟩
    rcases List.mem_singleton.mp hs with rfl
    exact h0

theorem downloadPpi_spec (r : ProgRunner) (fs : List String)
    (res : ResOracle) :
    ((downloadPpi r fs res).1 = 0 → okTrace res (downloadPpi r fs res).2) ∧
    ((downloadPpi r fs res).1 ≠ 0 →
      (downloadPpi r fs res).2 = [Stage.ppiDownload] ∧
        res .ppiDownload = (downloadPpi r fs res).1) := by
  by_cases h : isDir fs r.ppiDir
  · have e : downloadPpi r fs res = (0, []) := by rw [downloadPpi, if_pos h]
    rw [e]
    exact ⟨fun _ => okTrace_nil, fun hne => absurd rfl hne⟩
  · have e : downloadPpi r fs res = (res .ppiDownload, [.ppiDownload]) := by
      rw [downloadPpi, if_neg h]
    rw [e]
    refine ⟨fun h0 s hs => ?_, fun _ => ⟨rfl, rfl⟩⟩
    rcases List.mem_singleton.mp hs with rfl
    exact h0

theorem embedPpi_spec (r : ProgRunner) (fs : List String) (res : ResOracle) :
    ((embedPpi r fs res).1 = 0 → okTrace res (embedPpi r fs res).2) ∧
    ((embedPpi r fs res).1 ≠ 0 →
      (embedPpi r fs res).2 = [Stage.ppiEmbed] ∧
        res .ppiEmbed = (embedPpi r fs res).1) := by
  by_cases h : isDir fs r.ppiEmbedDir
  · have e : embedPpi r fs res = (0, []) := by rw [embedPpi, if_pos h]
    rw [e]
    exact ⟨fun _ => okTrace_nil, fun hne => absurd rfl hne⟩
  · have e : embedPpi r fs res = (res .ppiEmbed, [.ppiEmbed]) := by
      rw [embedPpi, if_neg h]
    rw [e]
    refine ⟨fun h0 s hs => ?_, fun _ => ⟨rfl, rfl⟩⟩
    rcases List.mem_singleton.mp hs with rfl
    exact h0

theorem hierarchyStep_spec (r : ProgRunner) (fs : List String)
    (res : ResOracle) :
    ((hierarchyStep r fs res).1 = 0 →
      okTrace res (hierarchyStep r fs res).2) ∧
    ((hierarchyStep r fs res).1 ≠ 0 →
      (hierarchyStep r fs res).2 = [Stage.hierarchy] ∧
        res .hierarchy = (hierarchyStep r fs res).1) := by
  by_cases h : isDir fs r.hierarchyDir
  · have e : hierarchyStep r fs res = (0, []) := by rw [hierarchyStep, if_pos h]
    rw [e]
    exact ⟨fun _ => okTrace_nil, fun hne => absurd rfl hne⟩
  · have e : hierarchyStep r fs res = (res .hierarchy, [.hierarchy]) := by
      rw [hierarchyStep, if_neg h]
    rw [e]
    refine ⟨fun h0 s hs => ?_, fun _ => ⟨rfl, rfl⟩⟩
    rcases List.mem_singleton.mp hs with rfl
    exact h0

/-- Structure of every possible outcome of `ProgrammaticPipelineRunner.run`:
a returned value is always 0 with every invoked worker having returned 0,
and a raised `CellmapsPipelineError` means the invocation trace ends at a
stage whose worker returned nonzero, every earlier invoked worker returned
0, and the message is that stage's phase label. -/
theorem programmaticRun_spec (r : ProgRunner) (fs : List String)
    (res : ResOracle) :
    (∀ c, (programmaticRun r fs res).1 = .ok c →
      c = 0 ∧ okTrace res (programmaticRun r fs res).2) ∧
    (∀ m, (programmaticRun r fs res).1 = .error m →
      ∃ tr k, (programmaticRun r fs res).2 = tr ++ [k] ∧ okTrace res tr ∧
        res k ≠ 0 ∧ m = failLabel k) := by
  simp only [programmaticRun]
  by_cases h1 : (downloadImages r fs res).1 ≠ 0
  · rw [if_pos h1]
    refine ⟨fun c hc => (by cases hc), fun m hm => ?_⟩
    obtain ⟨ht, hres⟩ := (downloadImages_spec r fs res).2 h1
    injection hm with hm
    exact ⟨[], .imageDownload, by rw [ht]; rfl, okTrace_nil,
      by rw [hres]; exact h1, by rw [← hm]; rfl⟩
  · rw [if_neg h1]
    push_neg at h1
    have ok1 := (downloadImages_spec r fs res).1 h1
    by_cases h2 : (downloadPpi r fs res).1 ≠ 0
    · rw [if_pos h2]
      refine ⟨fun c hc => (by cases hc), fun m hm => ?_⟩
      obtain ⟨ht, hres⟩ := (downloadPpi_spec r fs res).2 h2
      injection hm with hm
      exact ⟨(downloadImages r fs res).2, .ppiDownload, by rw [ht],
        ok1, by rw [hres]; exact h2, by rw [← hm]; rfl⟩
    · rw [if_neg h2]
      push_neg at h2
      have ok2 := (downloadPpi_spec r fs res).1 h2
      by_cases h3 : (embedPpi r fs res).1 ≠ 0
      · rw [if_pos h3]
        refine ⟨fun c hc => (by cases hc), fun m hm => ?_⟩
        obtain ⟨ht, hres⟩ := (embedPpi_spec r fs res).2 h3
        injection hm with hm
        exact ⟨(downloadImages r fs res).2 ++ (downloadPpi r fs res).2,
          .ppiEmbed, by rw [ht], okTrace_append.mpr ⟨ok1, ok2⟩,
          by rw [hres]; exact h3, by rw [← hm]; rfl⟩
      · rw [if_neg h3]
        push_neg at h3
        have ok3 := (embedPpi_spec r fs res).1 h3
        by_cases h4 : (embedImage r fs res).1 ≠ 0
        · rw [if_pos h4]
          refine ⟨fun c hc => (by cases hc), fun m hm => ?_⟩
          obtain ⟨tr, f, ht, hok, hres⟩ :=
            (embedImageLoop_spec fs res r.tuples).2 h4
          injection hm with hm
          refine ⟨(downloadImages r fs res).2 ++ (downloadPpi r fs res).2 ++
            (embedPpi r fs res).2 ++ tr, .imageEmbed f, ?_, ?_, ?_, ?_⟩
          · show _ ++ (embedImageLoop fs res r.tuples).2 = _
            rw [ht]; simp
          · exact okTrace_append.mpr ⟨okTrace_append.mpr
              ⟨okTrace_append.mpr ⟨ok1, ok2⟩, ok3⟩, hok⟩
          · rw [hres]; exact h4
          · rw [← hm]; rfl
        · rw [if_neg h4]
          push_neg at h4
          have ok4 := (embedImageLoop_spec fs res r.tuples).1 h4
          by_cases h5 : (coEmbedStep r fs res).1 ≠ 0
          · rw [if_pos h5]
            refine ⟨fun c hc => (by cases hc), fun m hm => ?_⟩
            obtain ⟨tr, f, ht, hok, hres⟩ :=
              (coEmbedLoop_spec fs res r.tuples).2 h5
            injection hm with hm
            refine ⟨(downloadImages r fs res).2 ++ (downloadPpi r fs res).2 ++
              (embedPpi r fs res).2 ++ (embedImage r fs res).2 ++ tr,
              .coEmbed f, ?_, ?_, ?_, ?_⟩
            · show _ ++ (coEmbedLoop fs res r.tuples).2 = _
              rw [ht]; simp
            · exact okTrace_append.mpr ⟨okTrace_append.mpr
                ⟨okTrace_append.mpr ⟨okTrace_append.mpr ⟨ok1, ok2⟩, ok3⟩,
                  ok4⟩, hok⟩
            · rw [hres]; exact h5
            · rw [← hm]; rfl
          · rw [if_neg h5]
            push_neg at h5
            have ok5 := (coEmbedLoop_spec fs res r.tuples).1 h5
            by_cases h6 : (hierarchyStep r fs res).1 ≠ 0
            · rw [if_pos h6]
              refine ⟨fun c hc => (by cases hc), fun m hm => ?_⟩
              obtain ⟨ht, hres⟩ := (hierarchyStep_spec r fs res).2 h6
              injection hm with hm
              refine ⟨(downloadImages r fs res).2 ++
                (downloadPpi r fs res).2 ++ (embedPpi r fs res).2 ++
                (embedImage r fs res).2 ++ (coEmbedStep r fs res).2,
                .hierarchy, by rw [ht], ?_, by rw [hres]; exact h6,
                by rw [← hm]; rfl⟩
              exact okTrace_append.mpr ⟨okTrace_append.mpr
                ⟨okTrace_append.mpr ⟨okTrace_append.mpr ⟨ok1, ok2⟩, ok3⟩,
                  ok4⟩, ok5⟩
            · rw [if_neg h6]
              push_neg at h6
              have ok6 := (hierarchyStep_spec r fs res).1 h6
              refine ⟨fun c hc => ⟨(by injection hc with hc; exact hc.symm), ?_⟩,
                fun m hm => (by cases hm)⟩
              exact okTrace_append.mpr ⟨okTrace_append.mpr
                ⟨okTrace_append.mpr ⟨okTrace_append.mpr
                  ⟨okTrace_append.mpr ⟨ok1, ok2⟩, ok3⟩, ok4⟩, ok5⟩, ok6⟩

theorem run_trace_sublist (r : ProgRunner) (fs : List String)
    (res : ResOracle) :
    List.Sublist (programmaticRun r fs res).2 (fullOrder r.tuples) := by
  have s1 : List.Sublist (downloadImages r fs res).2 [Stage.imageDownload] := by
    unfold downloadImages; split <;> simp
  have s2 : List.Sublist (downloadPpi r fs res).2 [Stage.ppiDownload] := by
    unfold downloadPpi; split <;> simp
  have s3 : List.Sublist (embedPpi r fs res).2 [Stage.ppiEmbed] := by
    unfold embedPpi; split <;> simp
  have s4 := embedImageLoop_trace_sublist fs res r.tuples
  have s5 := coEmbedLoop_trace_sublist fs res r.tuples
  have s6 : List.Sublist (hierarchyStep r fs res).2 [Stage.hierarchy] := by
    unfold hierarchyStep; split <;> simp
  simp only [programmaticRun, fullOrder]
  split
  · exact s1.trans (List.sublist_append_left _ _)
  · split
    · exact s1.append (s2.trans (List.sublist_append_left _ _))
    · split
      · simp only [List.append_assoc]
        exact s1.append (s2.append
          (s3.trans (List.sublist_append_left _ _)))
      · split
        · simp only [List.append_assoc]
          exact s1.append (s2.append (s3.append
            (s4.trans (List.sublist_append_left _ _))))
        · split
          · simp only [List.append_assoc]
            exact s1.append (s2.append (s3.append (s4.append
              (s5.trans (List.sublist_append_left _ _)))))
          · split
            · simp only [List.append_assoc]
              exact s1.append (s2.append (s3.append (s4.append
                (s5.append s6))))
            · simp only [List.append_assoc]
              exact s1.append (s2.append (s3.append (s4.append
                (s5.append s6))))

theorem dependsOn_irrefl (s : Stage) : dependsOn s s = false := by
  cases s <;> rfl

theorem dependsOn_from_imageDownload (b : Stage) :
    dependsOn .imageDownload b = false := by cases b <;> rfl

theorem dependsOn_from_ppiDownload (b : Stage) :
    dependsOn .ppiDownload b = false := by cases b <;> rfl

theorem fullOrder_pairwise (ts : List (Nat × String × String)) :
    (fullOrder ts).Pairwise (fun a b => dependsOn a b = false) := by
  have hie : (ts.map (fun t => Stage.imageEmbed t.1)).Pairwise
      (fun a b => dependsOn a b = false) :=
    List.pairwise_map.mpr (List.pairwise_of_forall (fun _ _ => rfl) )
  have hce : (ts.map (fun t => Stage.coEmbed t.1)).Pairwise
      (fun a b => dependsOn a b = false) :=
    List.pairwise_map.mpr (List.pairwise_of_forall (fun _ _ => rfl))
  simp only [fullOrder, List.append_assoc, List.singleton_append]
  refine List.Pairwise.cons (fun b _ => dependsOn_from_imageDownload b)
    (List.Pairwise.cons (fun b _ => dependsOn_from_ppiDownload b)
      (List.Pairwise.cons ?_ ?_))
  · intro b hb
    rcases List.mem_append.mp hb with h | h
    · obtain ⟨t, -, rfl⟩ := List.mem_map.mp h
      rfl
    · rcases List.mem_append.mp h with h | h
      · obtain ⟨t, -, rfl⟩ := List.mem_map.mp h
        rfl
      · rcases List.mem_singleton.mp h with rfl
        rfl
  · refine List.pairwise_append.mpr ⟨hie, List.pairwise_append.mpr
      ⟨hce, ?_, ?_⟩, ?_⟩
    · exact List.pairwise_singleton _ _
    · intro a ha b hb
      obtain ⟨t, -, rfl⟩ := List.mem_map.mp ha
      rcases List.mem_singleton.mp hb with rfl
      rfl
    · intro a ha b hb
      obtain ⟨t, -, rfl⟩ := List.mem_map.mp ha
      rcases List.mem_append.mp hb with h | h
      · obtain ⟨u, -, rfl⟩ := List.mem_map.mp h
        rfl
      · rcases List.mem_singleton.mp h with rfl
        rfl

/-- C3: for every configuration, if stage `k`'s worker returns a nonzero
code (and `k` was invoked), then no stage topologically after `k` — i.e.
no stage that (transitively) depends on `k` in the DAG — has its `run()`
invoked by the in-process strategy. -/
theorem short_circuit_no_downstream (r : ProgRunner) (fs : List String)
    (res : ResOracle) (k s : Stage)
    (hk : k ∈ (programmaticRun r fs res).2) (hres : res k ≠ 0)
    (hdep : dependsOn s k = true) :
    s ∉ (programmaticRun r fs res).2 := by
  intro hs
  obtain ⟨hok, herr⟩ := programmaticRun_spec r fs res
  cases hq : (programmaticRun r fs res).1 with
  | ok c => exact hres ((hok c hq).2 k hk)
  | error m =>
    obtain ⟨tr, k', htr, hoktr, hk'ne, -⟩ := herr m hq
    have hkk : k = k' := by
      rw [htr] at hk
      rcases List.mem_append.mp hk with h | h
      · exact absurd (hoktr k h) hres
      · exact List.mem_singleton.mp h
    subst hkk
    have hpw : (programmaticRun r fs res).2.Pairwise
        (fun a b => dependsOn a b = false) :=
      List.Pairwise.sublist (run_trace_sublist r fs res)
        (fullOrder_pairwise r.tuples)
    rw [htr] at hpw hs
    rcases List.mem_append.mp hs with h | h
    · have hfalse := (List.pairwise_append.mp hpw).2.2 s h k
        (List.mem_singleton_self _)
      rw [hfalse] at hdep
      exact absurd hdep (by decide)
    · rcases List.mem_singleton.mp h with rfl
      rw [dependsOn_irrefl] at hdep
      exact absurd hdep (by decide)

/-- C3 witness: fold set `[1, 2]`, fresh output root, CoEmbed(1)'s worker
returns 5, everything else 0.  CoEmbed(1) is in the invocation trace, and
Hierarchy — which depends on CoEmbed(1) — is never invoked. -/
theorem short_circuit_no_downstream_witness :
    (Stage.coEmbed 1 ∈ (programmaticRun (sampleProg [1, 2]) []
        (fun s => if s = Stage.coEmbed 1 then 5 else 0)).2 ∧
      (if Stage.coEmbed 1 = Stage.coEmbed 1 then (5 : Int) else 0) ≠ 0 ∧
      dependsOn .hierarchy (.coEmbed 1) = true) ∧
    Stage.hierarchy ∉ (programmaticRun (sampleProg [1, 2]) []
      (fun s => if s = Stage.coEmbed 1 then 5 else 0)).2 :=
  ⟨⟨by decide, by decide, rfl⟩,
    short_circuit_no_downstream (sampleProg [1, 2]) []
      (fun s => if s = Stage.coEmbed 1 then 5 else 0)
      (Stage.coEmbed 1) Stage.hierarchy (by decide) (by decide) rfl⟩

theorem string_left_cancel {a b c : String} (h : a ++ b = a ++ c) : b = c := by
  have hd := congrArg String.data h
  simp only [String.data_append] at hd
  exact String.ext (List.append_cancel_left hd)

theorem pathJoin_right_injective (od : String) :
    Function.Injective (pathJoin od) := by
  intro a b h
  exact @string_left_cancel (od ++ "/") a b h

theorem append_ne_of_head_ne {a b : String} {ca cb : Char} {ta tb : List Char}
    (ha : a.data = ca :: ta) (hb : b.data = cb :: tb) (hne : ca ≠ cb)
    (s t : String) : a ++ s ≠ b ++ t := by
  intro h
  have hd := congrArg String.data h
  simp only [String.data_append, ha, hb, List.cons_append] at hd
  injection hd with h1 _
  exact hne h1

theorem append_ne_lit_of_head_ne {a b : String} {ca cb : Char}
    {ta tb : List Char} (ha : a.data = ca :: ta) (hb : b.data = cb :: tb)
    (hne : ca ≠ cb) (s : String) : a ++ s ≠ b := by
  intro h
  have hd := congrArg String.data h
  simp only [String.data_append, ha, hb, List.cons_append] at hd
  injection hd with h1 _
  exact hne h1

theorem append_ne_of_length_gt {a b : String} (h : b.length < a.length)
    (s : String) : a ++ s ≠ b := by
  intro he
  have hl := congrArg String.length he
  rw [String.length_append] at hl
  omega

theorem ieName_injective : Function.Injective ieName :=
  fun _ _ h => natToStr_injective (string_left_cancel h)

theorem ceName_injective : Function.Injective ceName :=
  fun _ _ h => natToStr_injective (string_left_cancel h)

theorem ieName_ne_fixed (f : Nat) : ∀ x ∈ fixedNames, ieName f ≠ x := by
  intro x hx
  simp only [fixedNames, List.mem_cons, List.not_mem_nil, or_false] at hx
  rcases hx with rfl | rfl | rfl | rfl <;>
    exact append_ne_of_length_gt (by decide) (natToStr f)

theorem ceName_ne_fixed (f : Nat) : ∀ x ∈ fixedNames, ceName f ≠ x := by
  intro x hx
  simp only [fixedNames, List.mem_cons, List.not_mem_nil, or_false] at hx
  rcases hx with rfl | rfl | rfl | rfl
  · exact append_ne_lit_of_head_ne rfl rfl (by decide) (natToStr f)
  · exact append_ne_lit_of_head_ne rfl rfl (by decide) (natToStr f)
  · exact append_ne_lit_of_head_ne rfl rfl (by decide) (natToStr f)
  · exact append_ne_of_length_gt (by decide) (natToStr f)

theorem ieName_ne_ceName (f g : Nat) : ieName f ≠ ceName g :=
  append_ne_of_head_ne rfl rfl (by decide) (natToStr f) (natToStr g)

theorem stageNames_nodup (folds : List Nat) (hnd : folds.Nodup) :
    (stageNames folds).Nodup := by
  rw [stageNames, List.append_assoc, List.nodup_append]
  refine ⟨by decide, ?_, ?_⟩
  · rw [List.nodup_append]
    refine ⟨hnd.map ieName_injective, hnd.map ceName_injective, ?_⟩
    intro x hxie hxce
    obtain ⟨f, -, rfl⟩ := List.mem_map.mp hxie
    obtain ⟨g, -, hge⟩ := List.mem_map.mp hxce
    exact ieName_ne_ceName f g hge.symm
  · intro x hxfixed hx2
    rcases List.mem_append.mp hx2 with h | h
    · obtain ⟨f, -, rfl⟩ := List.mem_map.mp h
      exact ieName_ne_fixed f _ hxfixed rfl
    · obtain ⟨g, -, rfl⟩ := List.mem_map.mp h
      exact ceName_ne_fixed g _ hxfixed rfl

theorem stagePaths_eq_map (outdir : String) (folds : List Nat) :
    stagePaths outdir folds = (stageNames folds).map (pathJoin outdir) := by
  have h1 : folds.map (imageEmbedDirOf outdir) =
      folds.map (pathJoin outdir ∘ ieName) :=
    List.map_congr_left (fun f _ => rfl)
  have h2 : folds.map (coEmbedDirOf outdir) =
      folds.map (pathJoin outdir ∘ ceName) :=
    List.map_congr_left (fun f _ => rfl)
  simp [stagePaths, stageNames, fixedNames, List.map_map, imageDirOf,
    ppiDirOf, ppiEmbedDirOf, hierarchyDirOf, h1, h2]

/-- C9: for every output root and every non-empty list of distinct
positive folds, the output paths of the stage instances ImageDownload,
PPIDownload, PPIEmbed, Hierarchy, and each fold's ImageEmbed and CoEmbed
are pairwise distinct. -/
theorem stage_paths_pairwise_distinct (outdir : String) (folds : List Nat)
    (_hpos : ∀ f ∈ folds, 0 < f) (hnd : folds.Nodup) :
    (stagePaths outdir folds).Nodup := by
  rw [stagePaths_eq_map]
  exact (stageNames_nodup folds hnd).map (pathJoin_right_injective outdir)

/-- C9 witness: output root `/out`, folds `[1, 2]`: the ten stage output
paths are pairwise distinct. -/
theorem stage_paths_pairwise_distinct_witness :
    (stagePaths "/out" [1, 2]).Nodup :=
  stage_paths_pairwise_distinct "/out" [1, 2] (by decide) (by decide)

end MusicPipeline
